import Mathlib

/-!
# Okular certificate viewer: property table, detail pane and export

A shallow embedding of `ui/certificateviewer.cpp`:

* `CertificateModel` (constructor, `rowCount`, `columnCount`, `data`),
* `CertificateViewer.updateText` (the detail pane of the "Details" tab),
* `CertificateViewer.exportCertificate` (writing the certificate to a file).

Library behaviour the file relies on (Qt's `QByteArray::toHex`, `QVariant`,
`QModelIndex`, `QFile`, and KI18n's `i18n`) is modelled next to the code that
uses it.  Everything the program takes from its surroundings (the message
catalogue, the date and number formatting of the locale, the two helpers of
`signatureguiutils`, the behaviour of the storage device) is a parameter.
-/

namespace Okular

/-! ## Strings, bytes and variants -/

/-- A `QString`, as its sequence of characters.  Null and empty strings are
not told apart (they compare equal in Qt). -/
abbrev QString := List Char

/-- One byte of a `QByteArray`. -/
abbrev Byte := Fin 256

/-- A `QByteArray`, as its sequence of bytes. -/
abbrev QByteArray := List Byte

/-- The digit table of `QtMiscUtils::toHexLower`. -/
def hexDigits : List Char := "0123456789abcdef".toList

/-- `QtMiscUtils::toHexLower`: the lowercase hex digit of the low nibble. -/
def toHexLower (value : Nat) : Char := hexDigits.getD (value % 16) '0'

/-- The loop of `QByteArray::toHex(char separator)`: two digits per byte, then
the separator while the output is not yet full (`o < length`). -/
def toHexLoop (separator : Char) (length : Nat) : QByteArray → List Char → List Char
  | [], hex => hex
  | b :: rest, hex =>
    let hex1 := hex ++ [toHexLower (b.val / 16), toHexLower (b.val % 16)]
    let hex2 := if separator ≠ Char.ofNat 0 ∧ hex1.length < length then hex1 ++ [separator] else hex1
    toHexLoop separator length rest hex2

/-- `QByteArray::toHex(char separator)`, read as text: empty for an empty
array, else an output of `3 * size - 1` characters (`2 * size` without a
separator) filled by `toHexLoop`. -/
def QByteArray.toHex (data : QByteArray) (separator : Char) : QString :=
  if data.isEmpty then []
  else
    let length := if separator ≠ Char.ofNat 0 then data.length * 3 - 1 else data.length * 2
    toHexLoop separator length data []

/-- `QString::number(int)`: the decimal rendering, with a leading minus sign
for a negative number. -/
def QString.number (n : Int) : QString := (toString n).toList

/-- A `QVariant` as this file uses it: invalid (what `QVariant()` builds) or
holding a string. -/
inductive QVariant where
  | invalid
  | string (s : QString)
  deriving DecidableEq, Repr

/-- `QVariant::isValid`. -/
def QVariant.isValid : QVariant → Bool
  | .invalid => false
  | .string _ => true

/-- `QVariant::toString`: the held string, the empty string for an invalid
variant. -/
def QVariant.toString : QVariant → QString
  | .invalid => []
  | .string s => s

/-- A `QModelIndex`: row, column and whether it belongs to a model. -/
structure QModelIndex where
  row : Int
  column : Int
  hasModel : Bool
  deriving DecidableEq, Repr

/-- `QModelIndex::isValid`: non-negative row and column, and a model. -/
def QModelIndex.isValid (index : QModelIndex) : Bool :=
  decide (0 ≤ index.row) && decide (0 ≤ index.column) && index.hasModel

/-- The item roles `CertificateModel::data` switches on: the two Qt roles it
names, the three user roles of the model, and every other role number. -/
inductive Role where
  | DisplayRole
  | ToolTipRole
  | PropertyKeyRole
  | PropertyValueRole
  | PublicKeyRole
  | other (role : Int)
  deriving DecidableEq, Repr

/-! ## Translation (KI18n) -/

/-- Where `KLocalizedString` stands while it substitutes arguments: in plain
text, right after a percent sign, or inside the digits of a placeholder. -/
inductive SubsState where
  | text
  | percent
  | digits (n : Nat)

/-- What a finished placeholder `%n` is replaced by: the `n`-th argument
(counted from one), nothing when it is missing. -/
def placeholder (args : List QString) (n : Nat) : QString :=
  if n = 0 then [] else args.getD (n - 1) []

/-- Argument substitution of `KLocalizedString`: each `%n` in the template is
replaced by the `n`-th argument; a percent sign not followed by a digit stays
as it is. -/
def substitute (args : List QString) : SubsState → List Char → QString
  | .text, [] => []
  | .percent, [] => ['%']
  | .digits n, [] => placeholder args n
  | .text, c :: rest =>
    if c = '%' then substitute args .percent rest
    else c :: substitute args .text rest
  | .percent, c :: rest =>
    if c.isDigit then substitute args (.digits (c.toNat - 48)) rest
    else if c = '%' then '%' :: substitute args .percent rest
    else '%' :: c :: substitute args .text rest
  | .digits n, c :: rest =>
    if c.isDigit then substitute args (.digits (n * 10 + (c.toNat - 48))) rest
    else if c = '%' then placeholder args n ++ substitute args .percent rest
    else placeholder args n ++ c :: substitute args .text rest

/-- What the program takes from its surroundings. -/
structure Environment where
  /-- the message catalogue: the translated template of a message -/
  translate : QString → QString
  /-- how KI18n renders an integer argument (`%L1`) -/
  localizedNumber : Int → QString
  /-- `QDateTime::toString(format)` for a time stamp in milliseconds -/
  dateTimeToString : Int → QString → QString
  /-- `SignatureGuiUtils::getReadablePublicKeyType` -/
  getReadablePublicKeyType : Nat → QString
  /-- `SignatureGuiUtils::getReadableKeyUsage` -/
  getReadableKeyUsage : Nat → QString

/-- `i18n(message, args...)`: look the message up, then substitute. -/
def i18n (env : Environment) (message : String) (args : List QString) : QString :=
  substitute args .text (env.translate message.toList)

/-! ## The certificate -/

/-- The keys of `CertificateInfo::issuerInfo` and `subjectInfo`. -/
inductive EntityInfoKey where
  | CommonName
  | DistinguishedName
  | EmailAddress
  | Organization
  deriving DecidableEq, Repr

/-- What `Okular::CertificateInfo` answers to the accessors used here. -/
structure CertificateInfo where
  version : Int
  serialNumber : QByteArray
  issuerInfo : EntityInfoKey → QString
  subjectInfo : EntityInfoKey → QString
  validityStart : Int
  validityEnd : Int
  publicKeyType : Nat
  publicKeyStrength : Int
  publicKey : QByteArray
  keyUsageExtensions : Nat
  certificateData : QByteArray

/-! ## CertificateModel -/

/-- The members of `CertificateModel`. -/
structure CertificateModel where
  m_certificateInfo : CertificateInfo
  m_certificateProperties : List (QString × QString)

/-- The format both validity rows are printed with. -/
def dateFormat : QString := "MMM dd yyyy hh:mm:ss".toList

/-- `CertificateModel::CertificateModel`: the eight appended pairs. -/
def CertificateModel.new (env : Environment) (certInfo : CertificateInfo) : CertificateModel :=
  { m_certificateInfo := certInfo
    m_certificateProperties :=
      [ (i18n env "Version" [], i18n env "V%1" [QString.number certInfo.version]),
        (i18n env "Serial Number" [], certInfo.serialNumber.toHex ' '),
        (i18n env "Issuer" [], certInfo.issuerInfo .DistinguishedName),
        (i18n env "Issued On" [], env.dateTimeToString certInfo.validityStart dateFormat),
        (i18n env "Expires On" [], env.dateTimeToString certInfo.validityEnd dateFormat),
        (i18n env "Subject" [], certInfo.subjectInfo .DistinguishedName),
        (i18n env "Public Key" [],
          i18n env "%1 (%2 bits)"
            [env.getReadablePublicKeyType certInfo.publicKeyType,
             env.localizedNumber certInfo.publicKeyStrength]),
        (i18n env "Key Usage" [], env.getReadableKeyUsage certInfo.keyUsageExtensions) ] }

/-- `CertificateModel::columnCount`. -/
def CertificateModel.columnCount (_m : CertificateModel) : Int := 2

/-- `CertificateModel::rowCount`. -/
def CertificateModel.rowCount (m : CertificateModel) : Int := m.m_certificateProperties.length

/-- The pair `m_certificateProperties[row]` for a row the guard of `data` has
let through. -/
def CertificateModel.property (m : CertificateModel) (row : Int) : QString × QString :=
  m.m_certificateProperties.getD row.toNat ([], [])

/-- `CertificateModel::data`. -/
def CertificateModel.data (m : CertificateModel) (index : QModelIndex) (role : Role) : QVariant :=
  let row := index.row
  if !index.isValid || row < 0 || row ≥ m.rowCount then .invalid
  else
    match role with
    | .DisplayRole | .ToolTipRole =>
      if index.column = 0 then .string (m.property row).1
      else if index.column = 1 then .string (m.property row).2
      else .string []
    | .PropertyKeyRole => .string (m.property row).1
    | .PropertyValueRole => .string (m.property row).2
    | .PublicKeyRole => .string (m.m_certificateInfo.publicKey.toHex ' ')
    | .other _ => .invalid

/-! ## CertificateViewer -/

/-- The members of `CertificateViewer` the two slots touch; `m_propertyText`
is the text of the read-only detail pane. -/
structure CertificateViewer where
  m_certificateInfo : CertificateInfo
  m_certificateModel : CertificateModel
  m_propertyText : QString

/-- `CertificateViewer::CertificateViewer`, as far as the members go: the
model is built from the certificate and the detail pane starts empty. -/
def CertificateViewer.new (env : Environment) (certInfo : CertificateInfo) : CertificateViewer :=
  { m_certificateInfo := certInfo
    m_certificateModel := CertificateModel.new env certInfo
    m_propertyText := [] }

/-- The body of the `foreach` loop of `updateText`. -/
def appendForView (textToView : QString) (c : Char) : QString :=
  if c = ',' then textToView ++ ['\n'] else textToView ++ [c]

/-- `CertificateViewer::updateText`. -/
def CertificateViewer.updateText (v : CertificateViewer) (index : QModelIndex) : CertificateViewer :=
  let key := (v.m_certificateModel.data index .PropertyKeyRole).toString
  if key = "Public Key".toList then
    { v with m_propertyText := (v.m_certificateModel.data index .PublicKeyRole).toString }
  else
    let propertyValue := (v.m_certificateModel.data index .PropertyValueRole).toString
    let textToView := propertyValue.foldl appendForView []
    { v with m_propertyText := textToView }

/-! ## Files and the export -/

/-- The storage behind `QFile`: the contents of each path, whether a path can
be opened for writing, and what the device does with a write (`none`: it
reports an error, `some k`: it takes at most `k` bytes). -/
structure FileSystem where
  contents : QString → Option QByteArray
  canOpen : QString → Bool
  room : QString → Option Nat

/-- The file system with the file at `path` replaced. -/
def FileSystem.store (fs : FileSystem) (path : QString) (bytes : QByteArray) : FileSystem :=
  { fs with contents := fun p => if p = path then some bytes else fs.contents p }

/-- A `QFile` object: its name and whether the device is open. -/
structure QFile where
  fileName : QString
  isOpen : Bool

/-- `QFile::open(QIODevice::WriteOnly)`: on success the file exists and is
empty, and the object is open; on failure nothing changes. -/
def QFile.open (f : QFile) (fs : FileSystem) : Bool × QFile × FileSystem :=
  if fs.canOpen f.fileName then (true, { f with isOpen := true }, fs.store f.fileName [])
  else (false, f, fs)

/-- `QFile::write(data)`: -1 when the device is not open or reports an error,
else the number of bytes that went to the end of the file. -/
def QFile.write (f : QFile) (fs : FileSystem) (data : QByteArray) : Int × FileSystem :=
  if !f.isOpen then (-1, fs)
  else
    match fs.room f.fileName with
    | none => (-1, fs)
    | some k =>
      let written := data.take k
      ((written.length : Int), fs.store f.fileName ((fs.contents f.fileName).getD [] ++ written))

/-- What `exportCertificate` acts on: the file system and the error boxes
shown so far. -/
structure World where
  fileSystem : FileSystem
  errorBoxes : List QString

/-- `CertificateViewer::exportCertificate`; `path` is what
`QFileDialog::getSaveFileName` returned (empty when the prompt is cancelled).
The value `open` returns is dropped, as in the source; the final `close()`
ends the local `QFile` and changes no file, so it leaves no trace here. -/
def CertificateViewer.exportCertificate (env : Environment) (v : CertificateViewer)
    (path : QString) (w : World) : World :=
  if !path.isEmpty then
    let targetFile : QFile := { fileName := path, isOpen := false }
    let opened := targetFile.open w.fileSystem
    let wrote := opened.2.1.write opened.2.2 v.m_certificateInfo.certificateData
    if wrote.1 = -1 then
      { fileSystem := wrote.2
        errorBoxes := w.errorBoxes ++ [i18n env "Unable to export certificate!" []] }
    else
      { fileSystem := wrote.2, errorBoxes := w.errorBoxes }
  else w

/-! ## Environments and certificates used as examples -/

/-- The environment without a message catalogue: every message stands for
itself, numbers are printed in plain decimal. -/
def untranslated : Environment :=
  { translate := fun message => message
    localizedNumber := QString.number
    dateTimeToString := fun _ _ => "Jan 01 2018 00:00:00".toList
    getReadablePublicKeyType := fun _ => "RSA".toList
    getReadableKeyUsage := fun _ => "Digital Signature, Key Encipherment".toList }

/-- A catalogue in the manner of a French translation: the property names and
the version template are translated, other messages stand for themselves. -/
def french : Environment :=
  { untranslated with
    translate := fun message =>
      if message = "Version".toList then "Version".toList
      else if message = "Serial Number".toList then "Numéro de série".toList
      else if message = "Issuer".toList then "Émetteur".toList
      else if message = "Issued On".toList then "Émis le".toList
      else if message = "Expires On".toList then "Expire le".toList
      else if message = "Subject".toList then "Sujet".toList
      else if message = "Public Key".toList then "Clé publique".toList
      else if message = "Key Usage".toList then "Utilisation de la clé".toList
      else if message = "V%1".toList then "v. %1".toList
      else message }

/-- A small certificate. -/
def sampleCertificate : CertificateInfo :=
  { version := 3
    serialNumber := [0xAB, 0xCD, 0x01]
    issuerInfo := fun _ => "US,California,Example Corp".toList
    subjectInfo := fun _ => "CN=Jane Doe,O=Example Corp".toList
    validityStart := 0
    validityEnd := 1
    publicKeyType := 0
    publicKeyStrength := 2048
    publicKey := [0x30, 0x82, 0x01, 0x0A]
    keyUsageExtensions := 0
    certificateData := [0x30, 0x82, 0x03, 0x55] }

/-- A certificate whose issuer name holds a line break. -/
def multilineCertificate : CertificateInfo :=
  { sampleCertificate with issuerInfo := fun _ => "O=Example\nCorp,C=US".toList }

/-- A device with no files on which every path can be opened and written. -/
def emptyDisk : FileSystem :=
  { contents := fun _ => none, canOpen := fun _ => true, room := fun _ => some 65536 }

/-- A device on which no path can be opened for writing. -/
def readOnlyDisk : FileSystem := { emptyDisk with canOpen := fun _ => false }

/-- A device that takes two more bytes per write. -/
def halfFullDisk : FileSystem := { emptyDisk with room := fun _ => some 2 }

/-! ## The words of the specification -/

/-- The property names in the order the specification lists them. -/
def propertyNames : List String :=
  ["Version", "Serial Number", "Issuer", "Issued On", "Expires On", "Subject", "Public Key",
    "Key Usage"]

/-- The lowercase two-hex-digit encoding of one byte. -/
def twoHexDigits (b : Byte) : List Char := [Nat.digitChar (b.val / 16), Nat.digitChar (b.val % 16)]

/-- The two-digit encodings of the bytes in order, joined by the separator. -/
def hexJoined (separator : Char) (bytes : QByteArray) : QString :=
  List.intercalate [separator] (bytes.map twoHexDigits)

/-- A comma becomes a line break, any other character stays. -/
def commaToNewline (c : Char) : Char := if c = ',' then '\n' else c

/-- The text of the error box of `exportCertificate`. -/
def exportMessage (env : Environment) : QString := i18n env "Unable to export certificate!" []

/-- What the `write` call inside `exportCertificate` returns for a chosen
path: the file is opened first, whatever `open` returned. -/
def exportWriteResult (v : CertificateViewer) (path : QString) (w : World) : Int :=
  ((({ fileName := path, isOpen := false } : QFile).open w.fileSystem).2.1.write
    (({ fileName := path, isOpen := false } : QFile).open w.fileSystem).2.2
    v.m_certificateInfo.certificateData).1

/-! ## Hex encoding: the loop of `toHex` against the joined encoding -/

theorem toHexLower_eq_digitChar (n : Nat) (h : n < 16) : toHexLower n = Nat.digitChar n := by
  interval_cases n <;> rfl

theorem twoHexDigits_eq (b : Byte) :
    [toHexLower (b.val / 16), toHexLower (b.val % 16)] = twoHexDigits b := by
  have h1 : b.val / 16 < 16 := by have := b.isLt; omega
  have h2 : b.val % 16 < 16 := by omega
  simp [twoHexDigits, toHexLower_eq_digitChar _ h1, toHexLower_eq_digitChar _ h2]

theorem hexJoined_single (separator : Char) (b : Byte) :
    hexJoined separator [b] = twoHexDigits b := by
  simp [hexJoined, List.intercalate]

theorem hexJoined_cons_cons (separator : Char) (b c : Byte) (rest : QByteArray) :
    hexJoined separator (b :: c :: rest) =
      twoHexDigits b ++ separator :: hexJoined separator (c :: rest) := by
  simp [hexJoined, List.intercalate]

/-- The loop, started with an output buffer sized for what is still to come,
appends the joined encoding of the remaining bytes. -/
theorem toHexLoop_eq (separator : Char) (hsep : separator ≠ Char.ofNat 0) :
    ∀ (rest : QByteArray) (b : Byte) (hex : List Char),
      toHexLoop separator (hex.length + 3 * (rest.length + 1) - 1) (b :: rest) hex =
        hex ++ hexJoined separator (b :: rest)
  | [], b, hex => by
    have hfull : ¬ (hex.length + 2 < hex.length + 3 * (0 + 1) - 1) := by omega
    rw [hexJoined_single, ← twoHexDigits_eq]
    simp only [toHexLoop, List.length_append, List.length_cons, List.length_nil]
    rw [if_neg (fun h => hfull h.2)]
  | c :: rest, b, hex => by
    have hroom : hex.length + 2 < hex.length + 3 * ((c :: rest).length + 1) - 1 := by
      simp only [List.length_cons]; omega
    have hlen : hex.length + 3 * ((c :: rest).length + 1) - 1 =
        (hex ++ twoHexDigits b ++ [separator]).length + 3 * (rest.length + 1) - 1 := by
      simp only [List.length_cons, List.length_append, twoHexDigits, List.length_nil]; omega
    rw [hexJoined_cons_cons, toHexLoop, twoHexDigits_eq]
    have hlen2 : (hex ++ twoHexDigits b).length = hex.length + 2 := by
      simp [twoHexDigits]
    rw [if_pos ⟨hsep, by rw [hlen2]; exact hroom⟩, hlen, toHexLoop_eq separator hsep rest c]
    simp

theorem toHex_eq_hexJoined (data : QByteArray) (separator : Char)
    (hsep : separator ≠ Char.ofNat 0) : data.toHex separator = hexJoined separator data := by
  cases data with
  | nil => rfl
  | cons b rest =>
    have h := toHexLoop_eq separator hsep rest b []
    simp only [List.length_nil, Nat.zero_add, List.nil_append] at h
    simp only [QByteArray.toHex, List.isEmpty_cons, Bool.false_eq_true, if_false, if_pos hsep,
      List.length_cons]
    rw [← h]
    congr 1
    omega

theorem length_hexJoined (separator : Char) :
    ∀ bytes : QByteArray, (hexJoined separator bytes).length = 3 * bytes.length - 1
  | [] => rfl
  | [b] => by simp [hexJoined_single, twoHexDigits]
  | b :: c :: rest => by
    rw [hexJoined_cons_cons]
    simp only [List.length_append, List.length_cons, length_hexJoined separator (c :: rest),
      twoHexDigits, List.length_nil]
    omega

theorem rowCount_new (env : Environment) (certInfo : CertificateInfo) :
    (CertificateModel.new env certInfo).rowCount = 8 := rfl

/-- Past the guard, `data` is its `switch`. -/
theorem data_in_range (m : CertificateModel) (index : QModelIndex) (role : Role)
    (hvalid : index.isValid = true) (hrow : index.row < m.rowCount) :
    m.data index role =
      match role with
      | .DisplayRole | .ToolTipRole =>
        if index.column = 0 then .string (m.property index.row).1
        else if index.column = 1 then .string (m.property index.row).2
        else .string []
      | .PropertyKeyRole => .string (m.property index.row).1
      | .PropertyValueRole => .string (m.property index.row).2
      | .PublicKeyRole => .string (m.m_certificateInfo.publicKey.toHex ' ')
      | .other _ => .invalid := by
  have h0 : 0 ≤ index.row := by
    simp only [QModelIndex.isValid, Bool.and_eq_true, decide_eq_true_eq] at hvalid
    exact hvalid.1.1
  have hguard :
      (!index.isValid || decide (index.row < 0) || decide (index.row ≥ m.rowCount)) = false := by
    simp [hvalid]
    omega
  unfold CertificateModel.data
  simp only [hguard]
  rfl

/-- The guard of `data` answers every index it stops with `QVariant()`. -/
theorem data_out_of_range (m : CertificateModel) (index : QModelIndex) (role : Role)
    (h : index.isValid = false ∨ index.row < 0 ∨ m.rowCount ≤ index.row) :
    m.data index role = .invalid := by
  have hguard :
      (!index.isValid || decide (index.row < 0) || decide (index.row ≥ m.rowCount)) = true := by
    rcases h with h | h | h
    · simp [h]
    · simp [h]
    · simp [h]
  unfold CertificateModel.data
  simp only [hguard]
  rfl

/-- The name stored in row `r` is the translated `r`-th property name. -/
theorem property_name (env : Environment) (certInfo : CertificateInfo) (r : Int)
    (h0 : 0 ≤ r) (h8 : r < 8) :
    ((CertificateModel.new env certInfo).property r).1
      = i18n env (propertyNames.getD r.toNat "") [] := by
  interval_cases r <;> rfl

/-- The `foreach` loop of `updateText` maps the value character by character. -/
theorem foldl_appendForView (value : QString) :
    ∀ acc : QString, value.foldl appendForView acc = acc ++ value.map commaToNewline := by
  induction value with
  | nil => intro acc; simp
  | cons c rest ih =>
    intro acc
    rw [List.foldl_cons, ih]
    by_cases hc : c = ',' <;> simp [appendForView, commaToNewline, hc]

/-- In a catalogue that leaves "Public Key" and the value template as they
are, row 6 is named "Public Key" and shows the algorithm and the strength. -/
theorem publicKey_row_of_untranslated (env : Environment) (certInfo : CertificateInfo)
    (hname : env.translate "Public Key".toList = "Public Key".toList)
    (hvalue : env.translate "%1 (%2 bits)".toList = "%1 (%2 bits)".toList) :
    (CertificateModel.new env certInfo).data ⟨6, 0, true⟩ .PropertyKeyRole
      = .string "Public Key".toList ∧
    (CertificateModel.new env certInfo).data ⟨6, 1, true⟩ .DisplayRole
      = .string (env.getReadablePublicKeyType certInfo.publicKeyType ++ " (".toList ++
          env.localizedNumber certInfo.publicKeyStrength ++ " bits)".toList) := by
  rw [data_in_range _ _ _ (by decide) (by rw [rowCount_new]; decide),
    data_in_range _ _ _ (by decide) (by rw [rowCount_new]; decide)]
  constructor
  · show QVariant.string (i18n env "Public Key" []) = _
    rw [i18n, hname]
    rfl
  · show QVariant.string (i18n env "%1 (%2 bits)" _) = _
    rw [i18n, hvalue]
    simp [substitute, placeholder]

/-- Whenever the translated name of row 6 is not the literal "Public Key",
`updateText` takes the other branch there and shows the display value. -/
theorem publicKey_row_of_translated (env : Environment) (certInfo : CertificateInfo)
    (hname : i18n env "Public Key" [] ≠ "Public Key".toList) :
    ((CertificateViewer.new env certInfo).updateText ⟨6, 0, true⟩).m_propertyText
      = (((CertificateViewer.new env certInfo).m_certificateModel.data ⟨6, 0, true⟩
          .PropertyValueRole).toString).map commaToNewline := by
  have hkey : ((CertificateViewer.new env certInfo).m_certificateModel.data ⟨6, 0, true⟩
      .PropertyKeyRole).toString = i18n env "Public Key" [] := by
    rw [CertificateViewer.new, data_in_range _ _ _ (by decide) (by rw [rowCount_new]; decide)]
    rfl
  simp only [CertificateViewer.updateText, hkey, if_neg hname, foldl_appendForView,
    List.nil_append]

/-! ## The property table -/

/-- C1, as stated, fails: under a catalogue that translates the property
names, column 0 of row 1 shows the translated name, not "Serial Number". -/
theorem C1_names_follow_the_catalogue :
    (CertificateModel.new french sampleCertificate).data ⟨1, 0, true⟩ .DisplayRole
        = .string "Numéro de série".toList ∧
      (CertificateModel.new french sampleCertificate).data ⟨1, 0, true⟩ .DisplayRole
        ≠ .string "Serial Number".toList := by
  decide

/-- C1, amended: for every certificate and every catalogue the table has
exactly 8 rows, and for every row `r` in `[0, 8)` column 0 is `i18n` of the
`r`-th name of the fixed sequence (the name itself when the catalogue leaves
it as it is), while column 1 is a string. -/
theorem C1_table_shape (env : Environment) (certInfo : CertificateInfo) :
    (CertificateModel.new env certInfo).rowCount = 8 ∧
    ∀ r : Int, 0 ≤ r → r < 8 →
      (CertificateModel.new env certInfo).data ⟨r, 0, true⟩ .DisplayRole
          = .string (i18n env (propertyNames.getD r.toNat "") []) ∧
      (env.translate (propertyNames.getD r.toNat "").toList
          = (propertyNames.getD r.toNat "").toList →
        (CertificateModel.new env certInfo).data ⟨r, 0, true⟩ .DisplayRole
          = .string (propertyNames.getD r.toNat "").toList) ∧
      ∃ value : QString,
        (CertificateModel.new env certInfo).data ⟨r, 1, true⟩ .DisplayRole = .string value := by
  refine ⟨rfl, ?_⟩
  intro r h0 h8
  have hv0 : (⟨r, 0, true⟩ : QModelIndex).isValid = true := by simp [QModelIndex.isValid, h0]
  have hv1 : (⟨r, 1, true⟩ : QModelIndex).isValid = true := by simp [QModelIndex.isValid, h0]
  rw [data_in_range _ _ _ hv0 (by rw [rowCount_new]; exact h8),
    data_in_range _ _ _ hv1 (by rw [rowCount_new]; exact h8)]
  simp only [if_true]
  refine ⟨by rw [property_name env certInfo r h0 h8], ?_, ⟨_, rfl⟩⟩
  intro hname
  rw [property_name env certInfo r h0 h8, i18n, hname]
  congr 1
  interval_cases r <;> rfl

/-- C1, amended, at row 6 of the sample certificate without a catalogue: the
name is "Public Key" and the value is a string. -/
theorem C1_table_shape_witness :
    (CertificateModel.new untranslated sampleCertificate).data ⟨6, 0, true⟩ .DisplayRole
        = .string "Public Key".toList ∧
    ∃ value : QString,
      (CertificateModel.new untranslated sampleCertificate).data ⟨6, 1, true⟩ .DisplayRole
        = .string value :=
  ⟨((C1_table_shape untranslated sampleCertificate).2 6 (by decide) (by decide)).2.1 rfl,
   ((C1_table_shape untranslated sampleCertificate).2 6 (by decide) (by decide)).2.2⟩

/-- C2, as stated, fails: asked for row 8, `data` reports nothing and returns
the invalid variant, whose text is the empty string. -/
theorem C2_out_of_range_is_silent :
    (CertificateModel.new untranslated sampleCertificate).data ⟨8, 0, true⟩ .DisplayRole
      = .invalid ∧
    ((CertificateModel.new untranslated sampleCertificate).data ⟨8, 0, true⟩
      .DisplayRole).toString = [] := by
  decide

/-- C2, amended: for every row outside `[0, 8)` and every role, `data` returns
the invalid (empty) variant. -/
theorem C2_out_of_range_returns_invalid (env : Environment) (certInfo : CertificateInfo)
    (index : QModelIndex) (role : Role) (h : index.row < 0 ∨ 8 ≤ index.row) :
    (CertificateModel.new env certInfo).data index role = .invalid ∧
    ((CertificateModel.new env certInfo).data index role).toString = [] := by
  have hd := data_out_of_range (CertificateModel.new env certInfo) index role
    (by rw [rowCount_new]; exact Or.inr h)
  rw [hd]
  exact ⟨rfl, rfl⟩

/-- C2, amended, at row 8 of the sample certificate, asked for the value. -/
theorem C2_out_of_range_returns_invalid_witness :
    ((8 : Int) < 0 ∨ (8 : Int) ≤ 8) ∧
    (CertificateModel.new untranslated sampleCertificate).data ⟨8, 1, true⟩ .PropertyValueRole
      = .invalid ∧
    ((CertificateModel.new untranslated sampleCertificate).data ⟨8, 1, true⟩
      .PropertyValueRole).toString = [] :=
  ⟨by decide,
   C2_out_of_range_returns_invalid untranslated sampleCertificate ⟨8, 1, true⟩ .PropertyValueRole
     (by decide)⟩

/-- C7: for every serial number, the value of the "Serial Number" row (row 1,
column 1) is the lowercase two-hex-digit encoding of each byte in order,
joined by a single space; its length is `3 * n - 1` for `n` bytes, it is empty
for no bytes, and `[0xAB, 0xCD, 0x01]` gives "ab cd 01". -/
theorem C7_serial_number_hex (env : Environment) (certInfo : CertificateInfo) :
    (CertificateModel.new env certInfo).data ⟨1, 1, true⟩ .DisplayRole
      = .string (hexJoined ' ' certInfo.serialNumber) ∧
    (hexJoined ' ' certInfo.serialNumber).length = 3 * certInfo.serialNumber.length - 1 ∧
    hexJoined ' ' [] = [] ∧
    (CertificateModel.new env { certInfo with serialNumber := [0xAB, 0xCD, 0x01] }).data
      ⟨1, 1, true⟩ .DisplayRole = .string "ab cd 01".toList := by
  have hrow : ∀ c : CertificateInfo, (CertificateModel.new env c).data ⟨1, 1, true⟩ .DisplayRole
      = .string (c.serialNumber.toHex ' ') := by
    intro c
    rw [data_in_range _ _ _ (by decide) (by rw [rowCount_new]; decide)]
    rfl
  refine ⟨?_, length_hexJoined ' ' _, rfl, ?_⟩
  · rw [hrow, toHex_eq_hexJoined _ _ (by decide)]
  · rw [hrow]
    rfl

/-- C8, as stated, fails: with `PublicKeyRole`, row 0 gives the hex text of
the key and row 8 gives the invalid variant. -/
theorem C8_out_of_range_index_differs :
    (CertificateModel.new untranslated sampleCertificate).data ⟨0, 0, true⟩ .PublicKeyRole
      = .string "30 82 01 0a".toList ∧
    (CertificateModel.new untranslated sampleCertificate).data ⟨8, 0, true⟩ .PublicKeyRole
      = .invalid ∧
    (CertificateModel.new untranslated sampleCertificate).data ⟨0, 0, true⟩ .PublicKeyRole
      ≠ (CertificateModel.new untranslated sampleCertificate).data ⟨8, 0, true⟩
          .PublicKeyRole := by
  decide

/-- C8, amended: for every model and every pair of valid indices whose rows
lie inside the table (any columns), `data(index, PublicKeyRole)` returns the
same value, the space-separated hex encoding of the raw public key. -/
theorem C8_public_key_role_ignores_row (m : CertificateModel) (i j : QModelIndex)
    (hi : i.isValid = true ∧ i.row < m.rowCount) (hj : j.isValid = true ∧ j.row < m.rowCount) :
    m.data i .PublicKeyRole = m.data j .PublicKeyRole ∧
    m.data i .PublicKeyRole = .string (hexJoined ' ' m.m_certificateInfo.publicKey) := by
  rw [data_in_range _ _ _ hi.1 hi.2, data_in_range _ _ _ hj.1 hj.2,
    toHex_eq_hexJoined _ _ (by decide)]
  exact ⟨rfl, rfl⟩

/-- C8, amended, at row 0 column 0 and row 7 column 5 of the sample
certificate. -/
theorem C8_public_key_role_ignores_row_witness :
    (CertificateModel.new untranslated sampleCertificate).data ⟨0, 0, true⟩ .PublicKeyRole
      = (CertificateModel.new untranslated sampleCertificate).data ⟨7, 5, true⟩ .PublicKeyRole :=
  (C8_public_key_role_ignores_row (CertificateModel.new untranslated sampleCertificate)
    ⟨0, 0, true⟩ ⟨7, 5, true⟩ (by decide) (by decide)).1

/-- C9, as stated, fails: under a catalogue that renders the template "V%1"
as "v. %1", version 3 is displayed as "v. 3", not as "V3". -/
theorem C9_version_follows_the_catalogue :
    (CertificateModel.new french sampleCertificate).data ⟨0, 1, true⟩ .DisplayRole
      = .string "v. 3".toList ∧
    (CertificateModel.new french sampleCertificate).data ⟨0, 1, true⟩ .DisplayRole
      ≠ .string ('V' :: QString.number sampleCertificate.version) := by
  decide

/-- C9, amended: for every certificate with version `v`, the value of the
"Version" row (row 0, column 1) is `i18n("V%1")` with the decimal rendering of
`v` substituted; when the catalogue leaves the template as it is, this is "V"
followed by the decimal rendering of `v`. -/
theorem C9_version_value (env : Environment) (certInfo : CertificateInfo) :
    (CertificateModel.new env certInfo).data ⟨0, 1, true⟩ .DisplayRole
      = .string (i18n env "V%1" [QString.number certInfo.version]) ∧
    (env.translate "V%1".toList = "V%1".toList →
      (CertificateModel.new env certInfo).data ⟨0, 1, true⟩ .DisplayRole
        = .string ('V' :: QString.number certInfo.version)) := by
  have hd : (CertificateModel.new env certInfo).data ⟨0, 1, true⟩ .DisplayRole
      = .string (i18n env "V%1" [QString.number certInfo.version]) := by
    rw [data_in_range _ _ _ (by decide) (by rw [rowCount_new]; decide)]
    rfl
  refine ⟨hd, ?_⟩
  intro h
  rw [hd, i18n, h]
  rfl

/-- C9, amended, at the sample certificate without a catalogue: version 3 is
displayed as "V3". -/
theorem C9_version_value_witness :
    (CertificateModel.new untranslated sampleCertificate).data ⟨0, 1, true⟩ .DisplayRole
      = .string "V3".toList :=
  (C9_version_value untranslated sampleCertificate).2 rfl

/-! ## The detail pane -/

/-- C4, as stated, fails: for an issuer name that already holds a line break
at position 9, the detail text holds a line break there although the value
holds no comma there. -/
theorem C4_line_break_kept :
    (CertificateViewer.new untranslated multilineCertificate).m_certificateModel.data ⟨2, 0, true⟩
        .PropertyKeyRole ≠ .string "Public Key".toList ∧
    ((CertificateViewer.new untranslated multilineCertificate).updateText
        ⟨2, 0, true⟩).m_propertyText[9]? = some '\n' ∧
    ((CertificateViewer.new untranslated multilineCertificate).m_certificateModel.data
        ⟨2, 0, true⟩ .PropertyValueRole).toString[9]? ≠ some ',' := by
  decide

/-- C4, amended: for every certificate and every row whose name is not "Public
Key" (every valid such row in particular), `updateText` sets the detail text to the row's value mapped character by
character with a comma replaced by a line break and every other character
unchanged: the lengths agree, position `i` holds the line break when the value
holds a comma at `i` and otherwise the value's character, so it holds a line
break exactly when the value holds a comma or a line break at `i`. -/
theorem C4_other_rows_comma_to_newline (env : Environment) (certInfo : CertificateInfo)
    (index : QModelIndex)
    (hname : (CertificateViewer.new env certInfo).m_certificateModel.data index .PropertyKeyRole
      ≠ .string "Public Key".toList) :
    ((CertificateViewer.new env certInfo).updateText index).m_propertyText
      = (((CertificateViewer.new env certInfo).m_certificateModel.data index
          .PropertyValueRole).toString).map commaToNewline ∧
    ((CertificateViewer.new env certInfo).updateText index).m_propertyText.length
      = (((CertificateViewer.new env certInfo).m_certificateModel.data index
          .PropertyValueRole).toString).length ∧
    ∀ (i : Nat) (c : Char),
      (((CertificateViewer.new env certInfo).m_certificateModel.data index
          .PropertyValueRole).toString)[i]? = some c →
      ((CertificateViewer.new env certInfo).updateText index).m_propertyText[i]?
          = some (if c = ',' then '\n' else c) ∧
      (((CertificateViewer.new env certInfo).updateText index).m_propertyText[i]? = some '\n'
          ↔ (c = ',' ∨ c = '\n')) := by
  have hkey : ((CertificateViewer.new env certInfo).m_certificateModel.data index
      .PropertyKeyRole).toString ≠ "Public Key".toList := by
    intro h
    cases hd : (CertificateViewer.new env certInfo).m_certificateModel.data index
        .PropertyKeyRole with
    | invalid => rw [hd] at h; exact absurd h (by decide)
    | string s =>
      rw [hd] at h
      exact hname (by rw [hd]; exact congrArg QVariant.string h)
  have htext : ((CertificateViewer.new env certInfo).updateText index).m_propertyText
      = (((CertificateViewer.new env certInfo).m_certificateModel.data index
          .PropertyValueRole).toString).map commaToNewline := by
    simp only [CertificateViewer.updateText, if_neg hkey, foldl_appendForView, List.nil_append]
  refine ⟨htext, by rw [htext, List.length_map], ?_⟩
  intro i c hc
  rw [htext, List.getElem?_map, hc, Option.map_some', commaToNewline]
  refine ⟨rfl, ?_⟩
  by_cases h : c = ','
  · simp [h]
  · simp [h]

/-- C4, amended, at the issuer row of the sample certificate:
"US,California,Example Corp" gives "US\nCalifornia\nExample Corp". -/
theorem C4_other_rows_comma_to_newline_witness :
    (CertificateViewer.new untranslated sampleCertificate).m_certificateModel.data ⟨2, 0, true⟩
        .PropertyKeyRole ≠ .string "Public Key".toList ∧
    ((CertificateViewer.new untranslated sampleCertificate).m_certificateModel.data ⟨2, 0, true⟩
      .PropertyValueRole).toString = "US,California,Example Corp".toList ∧
    ((CertificateViewer.new untranslated sampleCertificate).updateText ⟨2, 0, true⟩).m_propertyText
      = "US\nCalifornia\nExample Corp".toList :=
  ⟨by decide, by decide,
   (C4_other_rows_comma_to_newline untranslated sampleCertificate ⟨2, 0, true⟩ (by decide)).1.trans
     (by decide)⟩

/-- C10 fails on the code: under a catalogue that translates "Public Key",
row 6 carries the translated name, `updateText` compares it with the literal
"Public Key", and the detail text is the display value "RSA (2048 bits)", not
the hex text of the key that the same certificate gets without a catalogue. -/
theorem C10_translated_name_misses_dispatch :
    (CertificateViewer.new french sampleCertificate).m_certificateModel.data ⟨6, 0, true⟩
        .PropertyKeyRole = .string (i18n french "Public Key" []) ∧
    ((CertificateViewer.new french sampleCertificate).updateText ⟨6, 0, true⟩).m_propertyText
      = "RSA (2048 bits)".toList ∧
    ((CertificateViewer.new french sampleCertificate).updateText ⟨6, 0, true⟩).m_propertyText
      ≠ sampleCertificate.publicKey.toHex ' ' ∧
    ((CertificateViewer.new untranslated sampleCertificate).updateText ⟨6, 0, true⟩).m_propertyText
      = sampleCertificate.publicKey.toHex ' ' := by
  decide

/-! ## The export -/

/-- C5, as stated, fails: on a device where the chosen path cannot be opened
for writing, the export of the sample certificate to "Certificate.cer" leaves
no file at that path. -/
theorem C5_unwritable_path_gets_no_file :
    "Certificate.cer".toList ≠ [] ∧
    ((CertificateViewer.new untranslated sampleCertificate).exportCertificate untranslated
        "Certificate.cer".toList ⟨readOnlyDisk, []⟩).fileSystem.contents "Certificate.cer".toList
      = none ∧
    ((CertificateViewer.new untranslated sampleCertificate).exportCertificate untranslated
        "Certificate.cer".toList ⟨readOnlyDisk, []⟩).fileSystem.contents "Certificate.cer".toList
      ≠ some sampleCertificate.certificateData := by
  decide

/-- C5, amended: for every payload and every non-empty chosen path that can be
opened for writing and whose device takes the whole payload, the export leaves
the file at that path with contents equal to `certificateData()` byte for
byte, leaves every other file alone and shows no error; when the prompt is
cancelled (empty path) the export changes nothing and shows no error. -/
theorem C5_export_writes_payload (env : Environment) (v : CertificateViewer) (w : World) :
    (∀ (path : QString) (k : Nat), path ≠ [] → w.fileSystem.canOpen path = true →
      w.fileSystem.room path = some k → v.m_certificateInfo.certificateData.length ≤ k →
      (v.exportCertificate env path w).fileSystem.contents path
          = some v.m_certificateInfo.certificateData ∧
      (∀ other : QString, other ≠ path →
        (v.exportCertificate env path w).fileSystem.contents other
          = w.fileSystem.contents other) ∧
      (v.exportCertificate env path w).errorBoxes = w.errorBoxes) ∧
    v.exportCertificate env [] w = w := by
  refine ⟨?_, rfl⟩
  intro path k hpath hopen hroom hlen
  have hne : path.isEmpty = false := by
    cases path with
    | nil => exact absurd rfl hpath
    | cons c rest => rfl
  have htake : List.take k v.m_certificateInfo.certificateData
      = v.m_certificateInfo.certificateData := List.take_of_length_le hlen
  have hno : ((v.m_certificateInfo.certificateData.length : Int) = -1) = False := by
    apply eq_false; omega
  simp only [CertificateViewer.exportCertificate, hne, QFile.open, hopen, QFile.write,
    FileSystem.store, hroom, htake, Bool.not_false, Bool.not_true, if_true, Bool.false_eq_true,
    if_false, Option.getD_some, List.nil_append, hno]
  refine ⟨trivial, ?_, trivial⟩
  intro other hother
  simp [hother]

/-- C5, amended, at the sample certificate exported to "Certificate.cer" on an
empty writable device. -/
theorem C5_export_writes_payload_witness :
    ((CertificateViewer.new untranslated sampleCertificate).exportCertificate untranslated
        "Certificate.cer".toList ⟨emptyDisk, []⟩).fileSystem.contents "Certificate.cer".toList
      = some [0x30, 0x82, 0x03, 0x55] ∧
    ((CertificateViewer.new untranslated sampleCertificate).exportCertificate untranslated
        "Certificate.cer".toList ⟨emptyDisk, []⟩).errorBoxes = [] :=
  ⟨((C5_export_writes_payload untranslated (CertificateViewer.new untranslated sampleCertificate)
      ⟨emptyDisk, []⟩).1 "Certificate.cer".toList 65536 (by decide) rfl rfl (by decide)).1,
   ((C5_export_writes_payload untranslated (CertificateViewer.new untranslated sampleCertificate)
      ⟨emptyDisk, []⟩).1 "Certificate.cer".toList 65536 (by decide) rfl rfl (by decide)).2.2⟩

/-- C6: the export shows the "Unable to export certificate!" box if and only
if a non-empty path was chosen and the write call returns -1; a write that
returns 0 or fewer bytes than the payload shows no box, and a failed open is
not checked: it shows only through the -1 of the write that follows. -/
theorem C6_error_iff_write_fails (env : Environment) (v : CertificateViewer) (path : QString)
    (w : World) :
    ((v.exportCertificate env path w).errorBoxes =
      if path ≠ [] ∧ exportWriteResult v path w = -1 then w.errorBoxes ++ [exportMessage env]
      else w.errorBoxes) ∧
    ((v.exportCertificate env path w).errorBoxes ≠ w.errorBoxes ↔
      (path ≠ [] ∧ exportWriteResult v path w = -1)) ∧
    (∀ k : Nat, path ≠ [] → w.fileSystem.canOpen path = true → w.fileSystem.room path = some k →
      exportWriteResult v path w = min k v.m_certificateInfo.certificateData.length ∧
      (v.exportCertificate env path w).errorBoxes = w.errorBoxes ∧
      (v.exportCertificate env path w).fileSystem.contents path
        = some (v.m_certificateInfo.certificateData.take k)) ∧
    (w.fileSystem.canOpen path = false → exportWriteResult v path w = -1) := by
  have hshape : (v.exportCertificate env path w).errorBoxes =
      if path ≠ [] ∧ exportWriteResult v path w = -1 then w.errorBoxes ++ [exportMessage env]
      else w.errorBoxes := by
    cases path with
    | nil => simp [CertificateViewer.exportCertificate]
    | cons c rest =>
      by_cases hw : exportWriteResult v (c :: rest) w = -1
      · have hw2 := hw
        unfold exportWriteResult at hw2
        simp only [CertificateViewer.exportCertificate, List.isEmpty_cons, Bool.not_false, if_true,
          hw2, hw, ne_eq, reduceCtorEq, not_false_eq_true, and_self, exportMessage]
      · have hw2 := hw
        unfold exportWriteResult at hw2
        simp only [CertificateViewer.exportCertificate, List.isEmpty_cons, Bool.not_false, if_true,
          hw2, hw, if_false, and_false]
  refine ⟨hshape, ?_, ?_, ?_⟩
  · rw [hshape]
    by_cases hc : path ≠ [] ∧ exportWriteResult v path w = -1
    · simp [hc]
    · simp [hc]
  · intro k hpath hopen hroom
    have hres : exportWriteResult v path w
        = min k v.m_certificateInfo.certificateData.length := by
      simp [exportWriteResult, QFile.open, QFile.write, hopen, hroom, FileSystem.store]
    have hne : ¬ (path ≠ [] ∧ exportWriteResult v path w = -1) := by
      rw [hres]; omega
    refine ⟨hres, by rw [hshape, if_neg hne], ?_⟩
    have hemp : path.isEmpty = false := by
      cases path with
      | nil => exact absurd rfl hpath
      | cons c rest => rfl
    simp [CertificateViewer.exportCertificate, hemp, QFile.open, QFile.write, hopen, hroom,
      FileSystem.store]
    split <;> simp
  · intro hopen
    simp [exportWriteResult, QFile.open, QFile.write, hopen]

/-- C6 at the sample certificate: on a device that takes two bytes the write
is short, no box is shown and the file holds the first two bytes; on a device
where the open fails the write returns -1. -/
theorem C6_error_iff_write_fails_witness :
    ((CertificateViewer.new untranslated sampleCertificate).exportCertificate untranslated
        "Certificate.cer".toList ⟨halfFullDisk, []⟩).errorBoxes = [] ∧
    ((CertificateViewer.new untranslated sampleCertificate).exportCertificate untranslated
        "Certificate.cer".toList ⟨halfFullDisk, []⟩).fileSystem.contents "Certificate.cer".toList
      = some [0x30, 0x82] ∧
    exportWriteResult (CertificateViewer.new untranslated sampleCertificate)
        "Certificate.cer".toList ⟨readOnlyDisk, []⟩ = -1 :=
  ⟨((C6_error_iff_write_fails untranslated (CertificateViewer.new untranslated sampleCertificate)
      "Certificate.cer".toList ⟨halfFullDisk, []⟩).2.2.1 2 (by decide) rfl rfl).2.1,
   ((C6_error_iff_write_fails untranslated (CertificateViewer.new untranslated sampleCertificate)
      "Certificate.cer".toList ⟨halfFullDisk, []⟩).2.2.1 2 (by decide) rfl rfl).2.2,
   (C6_error_iff_write_fails untranslated (CertificateViewer.new untranslated sampleCertificate)
      "Certificate.cer".toList ⟨readOnlyDisk, []⟩).2.2.2 rfl⟩

end Okular
